import Mathlib

/-!
Verification of the Mercury NA core (na.c) and shared-memory transport
(na_sm.c) against their natural-language specification.  The C code is
shallowly embedded: machine words are `Nat` with explicit masks where
overflow matters, queues are lists, and the sequential semantics of the
atomic operations is modelled (a compare-and-swap with no concurrent
writer always succeeds).
-/

namespace Mercury

/-- NA return codes (the error taxonomy of na_types.h / spec section 7). -/
inductive na_return where
  | NA_SUCCESS
  | NA_TIMEOUT
  | NA_INVALID_ARG
  | NA_NOMEM
  | NA_OVERFLOW
  | NA_PROTONOSUPPORT
  | NA_OPNOTSUPPORTED
  | NA_PROTOCOL_ERROR
  | NA_BUSY
  | NA_FAULT
  | NA_PERMISSION
  | NA_MSGSIZE
  | NA_CANCELED
  | NA_AGAIN
  deriving DecidableEq, Repr

/-- Completion callback types (na_cb_type in na_types.h, as used by na_sm.c). -/
inductive na_cb_type where
  | NA_CB_LOOKUP
  | NA_CB_SEND_UNEXPECTED
  | NA_CB_RECV_UNEXPECTED
  | NA_CB_SEND_EXPECTED
  | NA_CB_RECV_EXPECTED
  | NA_CB_PUT
  | NA_CB_GET
  deriving DecidableEq, Repr

/-- na_sm.c: `#define NA_SM_NUM_BUFS 64`. -/
def NA_SM_NUM_BUFS : Nat := 64

/-- na_sm.c: `#define NA_SM_COPY_BUF_SIZE 4096`. -/
def NA_SM_COPY_BUF_SIZE : Nat := 4096

/-- na_sm.c: `#define NA_SM_UNEXPECTED_SIZE NA_SM_COPY_BUF_SIZE`. -/
def NA_SM_UNEXPECTED_SIZE : Nat := NA_SM_COPY_BUF_SIZE

/-- na_sm.c: `#define NA_SM_EXPECTED_SIZE NA_SM_UNEXPECTED_SIZE`. -/
def NA_SM_EXPECTED_SIZE : Nat := NA_SM_UNEXPECTED_SIZE

/-- na_sm.c: op status bit `NA_SM_OP_COMPLETED (1 << 0)`. -/
def NA_SM_OP_COMPLETED : Nat := 1

/-- na_sm.c: op status bit `NA_SM_OP_CANCELED (1 << 1)`. -/
def NA_SM_OP_CANCELED : Nat := 2

/-- na_sm.c: op status bit `NA_SM_OP_QUEUED (1 << 2)`. -/
def NA_SM_OP_QUEUED : Nat := 4

/-- Mask of a 32-bit machine word (the op status field is a 32-bit atomic). -/
def UINT32_MAX : Nat := 2 ^ 32 - 1

/-- Mask of a 64-bit machine word (the availability bitmap is a 64-bit atomic). -/
def UINT64_MAX : Nat := 2 ^ 64 - 1

/-! ### Copy pool (na_sm.c, na_sm_reserve_and_copy_buf / na_sm_release_buf)

The 64-bit availability word is a `Nat` below `2^64`.  The sequential
semantics is modelled: `hg_atomic_get64` re-reads the same value on every
iteration and `hg_atomic_cas64` succeeds, so the scan result depends only
on the initial word. -/

/-- The do-while scan loop of `na_sm_reserve_and_copy_buf`, looking for the
first set bit starting from bit `i`.  The C loop re-tests `i <
NA_SM_NUM_BUFS - 1` after incrementing `i`, so it only ever examines bits
0 through 62.  `fuel` is a structural bound on the number of iterations;
the top-level call passes `NA_SM_NUM_BUFS`, which the loop's own exit
condition never exhausts. -/
def na_sm_reserve_scan (available : Nat) : Nat → Nat → Option Nat
  | 0, _ => none
  | fuel + 1, i =>
    if available = 0 then none
    else if available &&& (1 <<< i) = 1 <<< i then some i
    else if i + 1 < NA_SM_NUM_BUFS - 1 then
      na_sm_reserve_scan available fuel (i + 1)
    else none

/-- Result of `na_sm_reserve_and_copy_buf`: the return code, the
availability word after the call, and the reserved index (if any). -/
structure ReserveResult where
  ret : na_return
  available : Nat
  idx_reserved : Option Nat
  deriving DecidableEq, Repr

/-- na_sm.c `na_sm_reserve_and_copy_buf` (sequential semantics): scan bits
from the LSB; on the first set bit, clear it by CAS (`available & ~bits`)
and return `NA_SUCCESS` with the index; otherwise return `NA_AGAIN`
leaving the word unchanged.  The payload memcpy into slot `i` is not
modelled (byte contents play no role in the claims). -/
def na_sm_reserve_and_copy_buf (available : Nat) : ReserveResult :=
  match na_sm_reserve_scan available NA_SM_NUM_BUFS 0 with
  | some i => ⟨.NA_SUCCESS, available &&& (UINT64_MAX ^^^ (1 <<< i)), some i⟩
  | none => ⟨.NA_AGAIN, available, none⟩

/-- na_sm.c `na_sm_release_buf`: atomically OR the bit back in. -/
def na_sm_release_buf (available : Nat) (idx_reserved : Nat) : Nat :=
  available ||| (1 <<< idx_reserved)

/-! ### SM addresses (na_sm.c `struct na_sm_addr`, na.c `NA_Addr_cmp`)

Only the fields relevant to address comparison are kept; `conn_id` is
included precisely to show that it plays no role in the comparison. -/

/-- SM address: peer identified by `(pid, id, conn_id)`. -/
structure na_sm_addr where
  pid : Int
  id : Nat
  conn_id : Nat
  deriving DecidableEq, Repr

/-- na_sm.c `na_sm_addr_cmp`: compare `pid` and `id` only. -/
def na_sm_addr_cmp (na_sm_addr1 na_sm_addr2 : na_sm_addr) : Bool :=
  na_sm_addr1.pid == na_sm_addr2.pid && na_sm_addr1.id == na_sm_addr2.id

/-- na.c `NA_Addr_cmp` (with a non-NULL class whose plugin is SM):
`NA_ADDR_NULL` is modelled as `none`.  Both NULL compare true, exactly one
NULL compares false, otherwise dispatch to the plugin's `addr_cmp`. -/
def NA_Addr_cmp : Option na_sm_addr → Option na_sm_addr → Bool
  | none, none => true
  | none, some _ => false
  | some _, none => false
  | some a1, some a2 => na_sm_addr_cmp a1 a2

/-! ### NA context and its destruction (na.c `NA_Context_destroy`)

The context owns the bounded atomic completion queue and the unbounded
backfill queue; records are abstracted to labels.  The flags record the
destructive steps the C code performs (`hg_atomic_queue_free`, mutex/cond
destruction, `free`), so that "the destroy has no effect" is expressible. -/

/-- na.c `struct na_private_context`, restricted to the completion
pipeline state observable by `NA_Context_destroy`. -/
structure na_private_context where
  completion_queue : List Nat
  backfill_queue : List Nat
  completion_queue_freed : Bool
  mutex_destroyed : Bool
  freed : Bool
  deriving DecidableEq, Repr

/-- na.c `NA_Context_destroy` (non-NULL class and context): return `NA_BUSY`
if the atomic completion queue is non-empty; otherwise FREE the atomic
queue, then return `NA_BUSY` if the backfill queue is non-empty; otherwise
destroy the mutex/cond and free the context (the SM plugin has no
`context_destroy` callback, so that dispatch is skipped). -/
def NA_Context_destroy (ctx : na_private_context) : na_return × na_private_context :=
  if ctx.completion_queue ≠ [] then (.NA_BUSY, ctx)
  else
    let ctx1 := { ctx with completion_queue_freed := true }
    if ctx1.backfill_queue ≠ [] then (.NA_BUSY, ctx1)
    else (.NA_SUCCESS, { ctx1 with mutex_destroyed := true, freed := true })

/-! ### Memory handles, put/get permission checks (na_sm.c)

Segments are `(base, length)` pairs of machine words. -/

/-- na_sm.c `struct na_sm_mem_handle`: segment vector, access flags and
total length.  The C `iovcnt` field always equals the extent of the `iov`
array, so it is represented by `iov.length`. -/
structure na_sm_mem_handle where
  iov : List (Nat × Nat)
  flags : Nat
  len : Nat
  deriving DecidableEq, Repr

/-- Memory access flag `NA_MEM_READ_ONLY`.  Modelled from the spec: the
numeric values live in na.h which is not part of the given sources; only
their distinctness matters to the permission switch. -/
def NA_MEM_READ_ONLY : Nat := 1

/-- Memory access flag `NA_MEM_WRITE_ONLY` (see `NA_MEM_READ_ONLY`). -/
def NA_MEM_WRITE_ONLY : Nat := 2

/-- Memory access flag `NA_MEM_READWRITE` (see `NA_MEM_READ_ONLY`). -/
def NA_MEM_READWRITE : Nat := 3

/-- State observable by the RMA entry points: the completion records added
so far (labels only). -/
structure SmRmaState where
  completions : List na_cb_type
  deriving DecidableEq, Repr

/-- na_sm.c `na_sm_put`, permission-check prefix: the switch on the remote
handle's flags runs before the op id is touched or anything is posted.
`rest` is the remainder of the function (op setup, offset translation,
cross-process write, completion), which only runs when the check passes. -/
def na_sm_put (remote_flags : Nat) (s : SmRmaState)
    (rest : SmRmaState → na_return × SmRmaState) : na_return × SmRmaState :=
  if remote_flags = NA_MEM_READ_ONLY then (.NA_PERMISSION, s)
  else if remote_flags = NA_MEM_WRITE_ONLY ∨ remote_flags = NA_MEM_READWRITE then rest s
  else (.NA_INVALID_ARG, s)

/-- na_sm.c `na_sm_get`, permission-check prefix (mirror of `na_sm_put`):
write-only remote handles are rejected with `NA_PERMISSION`, read-only and
read-write pass, anything else is `NA_INVALID_ARG`. -/
def na_sm_get (remote_flags : Nat) (s : SmRmaState)
    (rest : SmRmaState → na_return × SmRmaState) : na_return × SmRmaState :=
  if remote_flags = NA_MEM_WRITE_ONLY then (.NA_PERMISSION, s)
  else if remote_flags = NA_MEM_READ_ONLY ∨ remote_flags = NA_MEM_READWRITE then rest s
  else (.NA_INVALID_ARG, s)

/-! ### Message send path (na_sm.c `na_sm_msg_send_unexpected` /
`na_sm_msg_send_expected` and their helper `na_sm_msg_insert`)

The op id keeps its status word and reference count; the class/peer state
keeps the peer's availability word, the number of headers in the peer's
ring (the ring holds at most `NA_SM_NUM_BUFS` headers), the retry queue
and the completion records added so far.  Address reference counts and
notify fds are not modelled. -/

/-- An SM operation id, restricted to the fields the send/cancel paths
read and write: `status` (bit flags) and `ref_count`, both 32-bit atomics. -/
structure SmOp where
  id : Nat
  status : Nat
  ref_count : Nat
  deriving DecidableEq, Repr

/-- Class/peer state visible to the send path. -/
structure SmSendState where
  available : Nat
  ring_count : Nat
  retry_queue : List Nat
  completions : List na_cb_type
  no_retry : Bool
  deriving DecidableEq, Repr

/-- na_sm.c `na_sm_msg_insert`: push the header onto the peer's send ring
(`NA_PROTOCOL_ERROR` when the 64-slot ring is full), then complete the op
immediately (`na_sm_complete` sets the `COMPLETED` bit and enqueues the
completion record).  Notify writes are not modelled. -/
def na_sm_msg_insert (cb_type : na_cb_type) (op : SmOp) (s : SmSendState) :
    na_return × SmOp × SmSendState :=
  if s.ring_count = NA_SM_NUM_BUFS then (.NA_PROTOCOL_ERROR, op, s)
  else
    let s1 := { s with ring_count := s.ring_count + 1 }
    let op1 := { op with status := op.status ||| NA_SM_OP_COMPLETED }
    (.NA_SUCCESS, op1, { s1 with completions := s1.completions ++ [cb_type] })

/-- na_sm.c `na_sm_msg_send_unexpected`.  Checks in source order: the
4 KiB size limit (`NA_OVERFLOW`), the op-id completed check (`NA_BUSY`),
the ref-count CAS 1 → 2 (which spins; sequentially it never returns unless
`ref_count = 1`, modelled by `none`).  Then reserve a copy-pool slot: on
`NA_AGAIN` either fail (`no_retry`) or queue the op for retry and return
`NA_SUCCESS`; on success insert the message, whose failure releases the
reserved slot.  Buffer contents are not modelled. -/
def na_sm_msg_send_unexpected (op : SmOp) (buf_size : Nat) (s : SmSendState) :
    Option (na_return × SmOp × SmSendState) :=
  if buf_size > NA_SM_UNEXPECTED_SIZE then some (.NA_OVERFLOW, op, s)
  else if op.status &&& NA_SM_OP_COMPLETED = 0 then some (.NA_BUSY, op, s)
  else if op.ref_count ≠ 1 then none
  else
    let op1 : SmOp := { op with ref_count := 2, status := 0 }
    let r := na_sm_reserve_and_copy_buf s.available
    match r.idx_reserved with
    | none =>
      if s.no_retry then some (.NA_AGAIN, { op1 with ref_count := 1 }, s)
      else
        some (.NA_SUCCESS, { op1 with status := op1.status ||| NA_SM_OP_QUEUED },
          { s with retry_queue := s.retry_queue ++ [op.id] })
    | some i =>
      let s1 := { s with available := r.available }
      match na_sm_msg_insert .NA_CB_SEND_UNEXPECTED op1 s1 with
      | (.NA_SUCCESS, op2, s2) => some (.NA_SUCCESS, op2, s2)
      | (e, op2, s2) =>
        some (e, { op2 with ref_count := 1 },
          { s2 with available := na_sm_release_buf s2.available i })

/-- na_sm.c `na_sm_msg_send_expected`: identical control flow to
`na_sm_msg_send_unexpected` with the `NA_SM_EXPECTED_SIZE` limit and the
`NA_CB_SEND_EXPECTED` completion type. -/
def na_sm_msg_send_expected (op : SmOp) (buf_size : Nat) (s : SmSendState) :
    Option (na_return × SmOp × SmSendState) :=
  if buf_size > NA_SM_EXPECTED_SIZE then some (.NA_OVERFLOW, op, s)
  else if op.status &&& NA_SM_OP_COMPLETED = 0 then some (.NA_BUSY, op, s)
  else if op.ref_count ≠ 1 then none
  else
    let op1 : SmOp := { op with ref_count := 2, status := 0 }
    let r := na_sm_reserve_and_copy_buf s.available
    match r.idx_reserved with
    | none =>
      if s.no_retry then some (.NA_AGAIN, { op1 with ref_count := 1 }, s)
      else
        some (.NA_SUCCESS, { op1 with status := op1.status ||| NA_SM_OP_QUEUED },
          { s with retry_queue := s.retry_queue ++ [op.id] })
    | some i =>
      let s1 := { s with available := r.available }
      match na_sm_msg_insert .NA_CB_SEND_EXPECTED op1 s1 with
      | (.NA_SUCCESS, op2, s2) => some (.NA_SUCCESS, op2, s2)
      | (e, op2, s2) =>
        some (e, { op2 with ref_count := 1 },
          { s2 with available := na_sm_release_buf s2.available i })

/-! ### Info-string parsing and plugin selection (na.c `na_info_parse`,
`NA_Initialize_opt`; na_sm.c `NA_PLUGIN_OPS(sm)`, `na_sm_check_protocol`)

Strings are lists of characters.  `strtok_r(s, d)` skips leading
delimiters, takes the maximal delimiter-free token and leaves the rest
after the first delimiter (or the empty rest when the token runs to the
end of the string). -/

/-- One `strtok_r` step with a single-character delimiter set: `none` when
the string holds only delimiters (C returns NULL). -/
def strtok_step (delim : Char) (s : List Char) : Option (List Char × List Char) :=
  let s1 := s.dropWhile (· == delim)
  if s1.isEmpty then none
  else some (s1.takeWhile (· != delim), (s1.dropWhile (· != delim)).drop 1)

/-- na.c `struct na_info`: optional class name, protocol name, optional
host name. -/
structure na_info where
  class_name : Option (List Char)
  protocol_name : List Char
  host_name : Option (List Char)
  deriving DecidableEq, Repr

/-- na.c `na_info_parse`: split `[class+]protocol[://[host]]`.  The first
`strtok_r` on a colon yields `class+protocol`; a `+` inside it splits off
the class name.  An empty remainder means no host; otherwise it must start
with `//` (`NA_PROTONOSUPPORT` on bad format) and the host may be empty.
A string of only colons makes the C code dereference NULL (undefined);
that unreachable case is modelled as `NA_FAULT`. -/
def na_info_parse (info_string : List Char) : Except na_return na_info :=
  match strtok_step (':') info_string with
  | none => .error .NA_FAULT
  | some (token, locator) =>
    let parts : Option (List Char) × List Char :=
      if token.contains ('+') then
        match strtok_step ('+') token with
        | none => (none, [])
        | some (cls, rest) => (some cls, rest)
      else (none, token)
    if locator.isEmpty then .ok ⟨parts.1, parts.2, none⟩
    else if locator.take 2 ≠ [('/'), ('/')] then .error .NA_PROTONOSUPPORT
    else if (locator.drop 2).isEmpty then .ok ⟨parts.1, parts.2, none⟩
    else .ok ⟨parts.1, parts.2, some (locator.drop 2)⟩

/-- na_sm.c `na_sm_check_protocol`: accept exactly the protocol "sm". -/
def na_sm_check_protocol (protocol_name : List Char) : Bool :=
  protocol_name == ("sm").toList

/-- One entry of the NA plugin class table: registered class name and
protocol check. -/
structure na_class_ops where
  class_name : List Char
  check_protocol : List Char → Bool

/-- na_sm.c `NA_PLUGIN_OPS(sm)`: the SM plugin registers under the class
name "na" (first field of the ops table). -/
def NA_PLUGIN_OPS_sm : na_class_ops :=
  ⟨("na").toList, na_sm_check_protocol⟩

/-- na.c `na_class_table`: the SM plugin is first; the other plugins
(OFI/BMI/MPI/CCI) are outside the given sources and compiled out. -/
def na_class_table : List na_class_ops := [NA_PLUGIN_OPS_sm]

/-- The plugin-selection loop of na.c `NA_Initialize_opt`, returning the
selected plugin's index.  With a specified class name, non-matching
plugins are skipped; a matching plugin whose `check_protocol` fails makes
the whole call fail with `NA_PROTONOSUPPORT`.  With no class name, the
first plugin whose `check_protocol` accepts is taken.  Falling off the end
of the table is `NA_PROTONOSUPPORT`. -/
def na_plugin_select (info : na_info) : List na_class_ops → Nat → Except na_return Nat
  | [], _ => .error .NA_PROTONOSUPPORT
  | p :: rest, idx =>
    match info.class_name with
    | some c =>
      if c ≠ p.class_name then na_plugin_select info rest (idx + 1)
      else if p.check_protocol info.protocol_name then .ok idx
      else .error .NA_PROTONOSUPPORT
    | none =>
      if p.check_protocol info.protocol_name then .ok idx
      else na_plugin_select info rest (idx + 1)

/-- na.c `NA_Initialize_opt`, restricted to parsing and plugin selection
(allocation failures and the plugin's own `initialize` are not modelled):
parse the info string, then run the selection loop over the table. -/
def NA_Initialize_select (info_string : List Char) : Except na_return Nat :=
  match na_info_parse info_string with
  | .error e => .error e
  | .ok info => na_plugin_select info na_class_table 0

/-! ### Trigger (na.c `NA_Trigger`)

Sequential semantics: no producer runs concurrently, so a wait on the
completion-queue condition variable always ends by timeout.  Completion
records are labels; the trace records, in order, each user callback, each
plugin-release callback and any condition-variable wait. -/

/-- Events observable during one `NA_Trigger` call. -/
inductive TriggerEvent where
  | user_cb (r : Nat)
  | plugin_cb (r : Nat)
  | cond_wait
  deriving DecidableEq, Repr

/-- Result of `NA_Trigger`: return code, `*actual_count`, the event trace,
and the two completion queues as left behind. -/
structure TriggerResult where
  ret : na_return
  actual_count : Nat
  events : List TriggerEvent
  completion_queue : List Nat
  backfill_queue : List Nat
  deriving DecidableEq, Repr

/-- The `while (count < max_count)` loop of na.c `NA_Trigger`; `remaining`
is `max_count - count`.  Each iteration pops the atomic queue first, then
the backfill queue; a popped record runs its user callback then its
plugin-release callback.  With both queues empty: leave with `NA_SUCCESS`
if something was already processed, with `NA_TIMEOUT` if the timeout is
zero, and otherwise wait on the condition variable — which, with no
concurrent producer, expires and yields `NA_TIMEOUT`. -/
def NA_Trigger_loop (timeout : Nat) :
    Nat → List Nat → List Nat → List TriggerEvent → Nat → TriggerResult
  | 0, cq, bq, evs, count => ⟨.NA_SUCCESS, count, evs, cq, bq⟩
  | remaining + 1, cq, bq, evs, count =>
    match cq with
    | r :: cq1 =>
      NA_Trigger_loop timeout remaining cq1 bq
        (evs ++ [.user_cb r, .plugin_cb r]) (count + 1)
    | [] =>
      match bq with
      | r :: bq1 =>
        NA_Trigger_loop timeout remaining [] bq1
          (evs ++ [.user_cb r, .plugin_cb r]) (count + 1)
      | [] =>
        if count ≠ 0 then ⟨.NA_SUCCESS, count, evs, [], []⟩
        else if timeout = 0 then ⟨.NA_TIMEOUT, count, evs, [], []⟩
        else ⟨.NA_TIMEOUT, count, evs ++ [.cond_wait], [], []⟩

/-- na.c `NA_Trigger` (non-NULL context): run the loop starting with zero
records processed. -/
def NA_Trigger (timeout max_count : Nat) (cq bq : List Nat) : TriggerResult :=
  NA_Trigger_loop timeout max_count cq bq [] 0

/-! ### Cancellation (na_sm.c `na_sm_cancel`, `na_sm_complete`)

The class state keeps the three op queues the cancel path can touch and
the completion records (op id, callback return code) added so far. -/

/-- Class state visible to `na_sm_cancel`. -/
structure SmCancelState where
  unexpected_op_queue : List Nat
  expected_op_queue : List Nat
  retry_op_queue : List Nat
  completions : List (Nat × na_return)
  deriving DecidableEq, Repr

/-- na_sm.c `na_sm_complete`, restricted to status and completion
bookkeeping: atomically OR in the `COMPLETED` bit; if the old status
already carried `CANCELED`, the callback return code is `NA_CANCELED`,
otherwise `NA_SUCCESS`; enqueue the completion record. -/
def na_sm_complete (op : SmOp) (s : SmCancelState) : SmOp × SmCancelState :=
  let old := op.status
  let op1 := { op with status := old ||| NA_SM_OP_COMPLETED }
  let cb_ret : na_return :=
    if old &&& NA_SM_OP_CANCELED ≠ 0 then .NA_CANCELED else .NA_SUCCESS
  (op1, { s with completions := s.completions ++ [(op.id, cb_ret)] })

/-- The per-queue body of na_sm.c `na_sm_cancel`: under the queue's lock,
if the op still has the `QUEUED` bit, remove it from the queue, clear the
bit and mark it for synchronous completion. -/
def na_sm_cancel_dequeue (op : SmOp) (queue : List Nat) :
    SmOp × List Nat × Bool :=
  if op.status &&& NA_SM_OP_QUEUED ≠ 0 then
    ({ op with status := op.status &&& (UINT32_MAX ^^^ NA_SM_OP_QUEUED) },
      queue.erase op.id, true)
  else (op, queue, false)

/-- na_sm.c `na_sm_cancel` for an op of type `cb_type`: atomically OR in
the `CANCELED` bit; if the op was already `COMPLETED`, return immediately.
Otherwise locate it by completion type (lookups, puts and gets are left
alone); if still `QUEUED`, it is removed from its queue and completed
synchronously (its callback return code is `NA_CANCELED`). -/
def na_sm_cancel (cb_type : na_cb_type) (op : SmOp) (s : SmCancelState) :
    na_return × SmOp × SmCancelState :=
  let old := op.status
  let op1 := { op with status := old ||| NA_SM_OP_CANCELED }
  if old &&& NA_SM_OP_COMPLETED ≠ 0 then (.NA_SUCCESS, op1, s)
  else
    match cb_type with
    | .NA_CB_LOOKUP => (.NA_SUCCESS, op1, s)
    | .NA_CB_RECV_UNEXPECTED =>
      match na_sm_cancel_dequeue op1 s.unexpected_op_queue with
      | (op2, q, true) =>
        match na_sm_complete op2 { s with unexpected_op_queue := q } with
        | (op3, s2) => (.NA_SUCCESS, op3, s2)
      | (op2, _, false) => (.NA_SUCCESS, op2, s)
    | .NA_CB_RECV_EXPECTED =>
      match na_sm_cancel_dequeue op1 s.expected_op_queue with
      | (op2, q, true) =>
        match na_sm_complete op2 { s with expected_op_queue := q } with
        | (op3, s2) => (.NA_SUCCESS, op3, s2)
      | (op2, _, false) => (.NA_SUCCESS, op2, s)
    | .NA_CB_SEND_UNEXPECTED | .NA_CB_SEND_EXPECTED =>
      match na_sm_cancel_dequeue op1 s.retry_op_queue with
      | (op2, q, true) =>
        match na_sm_complete op2 { s with retry_op_queue := q } with
        | (op3, s2) => (.NA_SUCCESS, op3, s2)
      | (op2, _, false) => (.NA_SUCCESS, op2, s)
    | .NA_CB_PUT => (.NA_SUCCESS, op1, s)
    | .NA_CB_GET => (.NA_SUCCESS, op1, s)

/-- The op id as left by a successful synchronous cancellation: the
`CANCELED` bit is set, the `QUEUED` bit cleared, and the `COMPLETED` bit
set by `na_sm_complete`. -/
def cancelComplete (op : SmOp) : SmOp :=
  { op with status := ((op.status ||| NA_SM_OP_CANCELED) &&&
      (UINT32_MAX ^^^ NA_SM_OP_QUEUED)) ||| NA_SM_OP_COMPLETED }

/-! ### Offset translation (na_sm.c `na_sm_offset_translate`) -/

/-- na_sm.c `NA_SM_MIN`. -/
def NA_SM_MIN (a b : Nat) : Nat := if a < b then a else b

/-- The successor-segment loop of `na_sm_offset_translate`: emit segments
trimmed to the remaining length until it is exhausted or the table ends. -/
def na_sm_offset_fill : List (Nat × Nat) → Nat → List (Nat × Nat)
  | _, 0 => []
  | [], _ + 1 => []
  | (base, len) :: rest, remaining + 1 =>
    let l := NA_SM_MIN (remaining + 1) len
    (base, l) :: na_sm_offset_fill rest (remaining + 1 - l)

/-- The walk of `na_sm_offset_translate`: find the segment containing
`offset`, emit the first slice trimmed by the intra-segment offset and the
requested length, then emit successor segments until the length is
exhausted.  When `offset` lies beyond the whole table the C code reads a
stale start index (undefined); that unreachable case yields `[]`. -/
def na_sm_offset_walk : List (Nat × Nat) → Nat → Nat → List (Nat × Nat)
  | [], _, _ => []
  | (base, len) :: rest, offset, length =>
    if offset < len then
      let first_len := NA_SM_MIN length (len - offset)
      (base + offset, first_len) :: na_sm_offset_fill rest (length - first_len)
    else na_sm_offset_walk rest (offset - len) length

/-- na_sm.c `na_sm_offset_translate` on a memory handle. -/
def na_sm_offset_translate (mem_handle : na_sm_mem_handle)
    (offset length : Nat) : List (Nat × Nat) :=
  na_sm_offset_walk mem_handle.iov offset length

/-- Total length of an iovec list (sum of segment lengths). -/
def iovLen (iov : List (Nat × Nat)) : Nat := (iov.map Prod.snd).sum

/-- The addresses covered by one segment, in order. -/
def segAddrs (s : Nat × Nat) : List Nat := List.range' s.1 s.2

/-- The addresses covered by an iovec list, concatenated in order. -/
def iovAddrs (iov : List (Nat × Nat)) : List Nat := iov.flatMap segAddrs

/-! ### Memory-handle serialisation (na_sm.c `na_sm_mem_handle_serialize`
/ `na_sm_mem_handle_deserialize`)

The C code memcpy's 8-byte machine words (unsigned long, size_t, void*)
into the buffer; bytes are little-endian `Nat`s below 256. -/

/-- The 8 bytes of a 64-bit machine word, little-endian. -/
def encodeU64 (n : Nat) : List Nat :=
  [n % 256, n / 256 % 256, n / 256 ^ 2 % 256, n / 256 ^ 3 % 256,
    n / 256 ^ 4 % 256, n / 256 ^ 5 % 256, n / 256 ^ 6 % 256, n / 256 ^ 7 % 256]

/-- Value of a little-endian byte list. -/
def leVal : List Nat → Nat
  | [] => 0
  | b :: rest => b + 256 * leVal rest

/-- Read one 8-byte machine word from the front of the buffer. -/
def readU64 (buf : List Nat) : Nat × List Nat :=
  (leVal (buf.take 8), buf.drop 8)

/-- na_sm.c `na_sm_mem_handle_serialize`: iovcnt, flags, len, then each
segment's base pointer and length (the buffer size argument is unused by
the C code). -/
def na_sm_mem_handle_serialize (mem_handle : na_sm_mem_handle) : List Nat :=
  encodeU64 mem_handle.iov.length ++ encodeU64 mem_handle.flags ++
    encodeU64 mem_handle.len ++
    mem_handle.iov.flatMap (fun s => encodeU64 s.1 ++ encodeU64 s.2)

/-- The segment-reading loop of `na_sm_mem_handle_deserialize`. -/
def readSegs : Nat → List Nat → List (Nat × Nat) × List Nat
  | 0, buf => ([], buf)
  | n + 1, buf =>
    let r1 := readU64 buf
    let r2 := readU64 r1.2
    let rest := readSegs n r2.2
    ((r1.1, r2.1) :: rest.1, rest.2)

/-- na_sm.c `na_sm_mem_handle_deserialize`: read iovcnt (`NA_FAULT` when
zero), flags, len, then iovcnt segments (the buffer size argument is
unused by the C code). -/
def na_sm_mem_handle_deserialize (buf : List Nat) :
    Except na_return na_sm_mem_handle :=
  let r1 := readU64 buf
  if r1.1 = 0 then .error .NA_FAULT
  else
    let r2 := readU64 r1.2
    let r3 := readU64 r2.2
    let segs := readSegs r1.1 r3.2
    .ok ⟨segs.1, r2.1, r3.1⟩

/-! ## Helper lemmas -/

/-- Conjunction (AND) distributes over disjunction (OR) on machine words. -/
theorem nat_or_and_distrib (a b c : Nat) :
    (a ||| b) &&& c = (a &&& c) ||| (b &&& c) := by
  apply Nat.eq_of_testBit_eq
  intro i
  simp [Nat.testBit_or, Nat.testBit_and, Bool.and_or_distrib_right]

/-- ORing a bit in makes the corresponding AND test that bit alone. -/
theorem nat_or_two_and_two (x : Nat) : (x ||| 2) &&& 2 = 2 := by
  apply Nat.eq_of_testBit_eq
  intro i
  simp [Nat.testBit_or, Nat.testBit_and]
  rcases i with _ | _ | i <;> simp [Nat.testBit_succ]

/-- ORing bit 0 in makes the corresponding AND test that bit alone. -/
theorem nat_or_one_and_one (x : Nat) : (x ||| 1) &&& 1 = 1 := by
  apply Nat.eq_of_testBit_eq
  intro i
  simp [Nat.testBit_or, Nat.testBit_and]
  rcases i with _ | i <;> simp [Nat.testBit_succ]

/-- na_sm.c `NA_SM_MIN` agrees with the mathematical minimum. -/
theorem NA_SM_MIN_eq_min (a b : Nat) : NA_SM_MIN a b = min a b := by
  simp only [NA_SM_MIN, Nat.min_def]
  split <;> split <;> omega

/-- Taking a prefix of an arithmetic range shortens it. -/
theorem range'_take (b l k : Nat) :
    (List.range' b l).take k = List.range' b (min k l) := by
  induction l generalizing b k with
  | zero => simp
  | succ n ih =>
    cases k with
    | zero => simp
    | succ k =>
      simp only [List.range'_succ, List.take_succ_cons, ih]
      rw [Nat.succ_min_succ, List.range'_succ]

/-- Dropping a prefix of an arithmetic range shifts its start. -/
theorem range'_drop (b l k : Nat) :
    (List.range' b l).drop k = List.range' (b + k) (l - k) := by
  induction l generalizing b k with
  | zero => simp
  | succ n ih =>
    cases k with
    | zero => simp [List.range'_succ]
    | succ k =>
      simp only [List.range'_succ, List.drop_succ_cons, ih]
      have h1 : b + 1 + k = b + (k + 1) := by omega
      have h2 : n - k = n + 1 - (k + 1) := by omega
      rw [h1, h2]

/-- The address list of the empty iovec. -/
theorem iovAddrs_nil : iovAddrs [] = [] := rfl

/-- The address list of an iovec decomposes segment by segment. -/
theorem iovAddrs_cons (s : Nat × Nat) (rest : List (Nat × Nat)) :
    iovAddrs (s :: rest) = segAddrs s ++ iovAddrs rest := by
  simp [iovAddrs, List.flatMap_cons]

/-- The total length of an iovec decomposes segment by segment. -/
theorem iovLen_cons (s : Nat × Nat) (rest : List (Nat × Nat)) :
    iovLen (s :: rest) = s.2 + iovLen rest := by
  simp [iovLen]

/-- A segment covers as many addresses as its length. -/
theorem segAddrs_length (s : Nat × Nat) : (segAddrs s).length = s.2 := by
  simp [segAddrs]

/-- An iovec covers as many addresses as its total length. -/
theorem iovAddrs_length (iov : List (Nat × Nat)) :
    (iovAddrs iov).length = iovLen iov := by
  induction iov with
  | nil => rfl
  | cons s rest ih =>
    rw [iovAddrs_cons, List.length_append, segAddrs_length, iovLen_cons, ih]

/-- The successor-segment loop of the offset translation emits exactly the
first `r` addresses of the remaining segments. -/
theorem na_sm_offset_fill_addrs (iov : List (Nat × Nat)) :
    ∀ r : Nat, r ≤ iovLen iov →
      iovAddrs (na_sm_offset_fill iov r) = (iovAddrs iov).take r := by
  induction iov with
  | nil =>
    intro r h
    cases r <;> simp [na_sm_offset_fill, iovAddrs]
  | cons s rest ih =>
    intro r h
    obtain ⟨b, l⟩ := s
    cases r with
    | zero => simp [na_sm_offset_fill, iovAddrs]
    | succ r =>
      have hm : NA_SM_MIN (r + 1) l = min (r + 1) l := NA_SM_MIN_eq_min _ _
      have hrest : r + 1 - NA_SM_MIN (r + 1) l ≤ iovLen rest := by
        rw [hm]; rw [iovLen_cons] at h; simp at h; omega
      simp only [na_sm_offset_fill, iovAddrs_cons]
      rw [ih _ hrest]
      rw [List.take_append_eq_append_take]
      congr 1
      · simp only [segAddrs, hm]
        rw [range'_take, Nat.min_comm]
      · congr 1
        rw [segAddrs_length, hm]
        omega

/-- The segment walk of the offset translation emits exactly the addresses
of the byte range `[offset, offset + length)` of the concatenated
segments, provided the range lies inside them. -/
theorem na_sm_offset_walk_addrs (iov : List (Nat × Nat)) :
    ∀ offset length : Nat, 0 < length → offset + length ≤ iovLen iov →
      iovAddrs (na_sm_offset_walk iov offset length) =
        ((iovAddrs iov).drop offset).take length := by
  induction iov with
  | nil =>
    intro offset length h1 h2
    simp [iovLen] at h2
    omega
  | cons s rest ih =>
    intro offset length h1 h2
    obtain ⟨b, l⟩ := s
    rw [iovLen_cons] at h2
    simp only [na_sm_offset_walk, iovAddrs_cons]
    by_cases hoff : offset < l
    · rw [if_pos hoff]
      have hm : NA_SM_MIN length (l - offset) = min length (l - offset) :=
        NA_SM_MIN_eq_min _ _
      have hrest : length - NA_SM_MIN length (l - offset) ≤ iovLen rest := by
        rw [hm]; simp at h2; omega
      rw [iovAddrs_cons, na_sm_offset_fill_addrs _ _ hrest]
      rw [List.drop_append_eq_append_drop, List.take_append_eq_append_take]
      have hd0 : offset - (segAddrs (b, l)).length = 0 := by
        rw [segAddrs_length]; omega
      rw [hd0, List.drop_zero]
      congr 1
      · simp only [segAddrs, hm]
        rw [range'_drop, range'_take, Nat.min_comm]
      · congr 1
        rw [List.length_drop, segAddrs_length, hm]
        omega
    · rw [if_neg hoff]
      have hge : l ≤ offset := Nat.not_lt.mp hoff
      rw [ih _ _ h1 (by omega)]
      rw [List.drop_append_eq_append_drop]
      have hseg : (segAddrs (b, l)).drop offset = [] := by
        simp only [segAddrs]
        rw [range'_drop]
        have : l - offset = 0 := by omega
        rw [this]
        rfl
      rw [hseg, segAddrs_length, List.nil_append]

/-- Closed form of the `NA_Trigger` loop (sequential semantics): it
processes the records of the atomic queue then of the backfill queue, at
most `remaining` of them; with nothing processed at all it waits (unless
the timeout is zero) and returns `NA_TIMEOUT`. -/
theorem NA_Trigger_loop_spec (timeout : Nat) (remaining : Nat) :
    ∀ (cq bq : List Nat) (evs : List TriggerEvent) (count : Nat),
      NA_Trigger_loop timeout remaining cq bq evs count =
        if (cq ++ bq).take remaining = [] ∧ remaining ≠ 0 ∧ count = 0 then
          ⟨.NA_TIMEOUT, count,
            evs ++ (if timeout = 0 then [] else [.cond_wait]), cq, bq⟩
        else
          ⟨.NA_SUCCESS, count + ((cq ++ bq).take remaining).length,
            evs ++ ((cq ++ bq).take remaining).flatMap
              (fun r => [.user_cb r, .plugin_cb r]),
            cq.drop remaining, bq.drop (remaining - cq.length)⟩ := by
  induction remaining with
  | zero =>
    intro cq bq evs count
    simp [NA_Trigger_loop]
  | succ n ih =>
    intro cq bq evs count
    cases cq with
    | cons r cq1 =>
      simp only [NA_Trigger_loop]
      rw [ih]
      have hcf : ¬((cq1 ++ bq).take n = [] ∧ n ≠ 0 ∧ count + 1 = 0) := by omega
      rw [if_neg hcf]
      have hof : ¬(((r :: cq1) ++ bq).take (n + 1) = [] ∧ n + 1 ≠ 0 ∧ count = 0) := by
        simp
      rw [if_neg hof]
      simp [List.take_succ_cons, List.flatMap_cons]
      omega
    | nil =>
      cases bq with
      | cons r bq1 =>
        simp only [NA_Trigger_loop]
        rw [ih]
        have hcf : ¬(([] ++ bq1).take n = [] ∧ n ≠ 0 ∧ count + 1 = 0) := by omega
        rw [if_neg hcf]
        have hof : ¬(([] ++ r :: bq1).take (n + 1) = [] ∧ n + 1 ≠ 0 ∧ count = 0) := by
          simp
        rw [if_neg hof]
        simp [List.take_succ_cons, List.flatMap_cons]
        omega
      | nil =>
        simp only [NA_Trigger_loop]
        by_cases hc : count = 0
        · subst hc
          simp only [ne_eq, not_true_eq_false, if_false, ite_not]
          by_cases ht : timeout = 0 <;> simp [ht]
        · simp [hc]

/-- A serialised machine word occupies 8 bytes. -/
theorem encodeU64_length (n : Nat) : (encodeU64 n).length = 8 := rfl

/-- Decoding the little-endian bytes of a 64-bit value recovers it. -/
theorem leVal_encodeU64 (n : Nat) (h : n < 2 ^ 64) : leVal (encodeU64 n) = n := by
  simp only [encodeU64, leVal]
  omega

/-- Reading a word from a buffer that starts with its encoding yields the
value and the remaining buffer. -/
theorem readU64_encodeU64 (n : Nat) (rest : List Nat) (h : n < 2 ^ 64) :
    readU64 (encodeU64 n ++ rest) = (n, rest) := by
  rw [readU64, List.take_left' (encodeU64_length n),
    List.drop_left' (encodeU64_length n), leVal_encodeU64 n h]

/-- The segment-reading loop recovers a serialised segment table. -/
theorem readSegs_encode (iov : List (Nat × Nat)) :
    ∀ rest : List Nat, (∀ s ∈ iov, s.1 < 2 ^ 64 ∧ s.2 < 2 ^ 64) →
      readSegs iov.length
        (iov.flatMap (fun s => encodeU64 s.1 ++ encodeU64 s.2) ++ rest) =
        (iov, rest) := by
  induction iov with
  | nil => intro rest h; rfl
  | cons s tl ih =>
    intro rest h
    obtain ⟨b, l⟩ := s
    have hb := (h (b, l) (List.mem_cons_self _ _)).1
    have hl := (h (b, l) (List.mem_cons_self _ _)).2
    simp only [List.flatMap_cons, List.length_cons, readSegs, List.append_assoc]
    rw [readU64_encodeU64 b _ hb]
    rw [readU64_encodeU64 l _ hl]
    rw [ih rest (fun x hx => h x (List.mem_cons_of_mem _ hx))]

/-! ## Claim theorems -/

/-- C10: `NA_Addr_cmp` returns true when both arguments are `NA_ADDR_NULL`
and false when exactly one is; two non-null SM addresses compare equal iff
their `pid` and `id` fields are both equal — the right-hand side of the
equivalence does not mention `conn_id`, so the connection id plays no role
in address equality. -/
theorem NA_Addr_cmp_spec :
    NA_Addr_cmp none none = true ∧
    (∀ a : na_sm_addr,
      NA_Addr_cmp (some a) none = false ∧ NA_Addr_cmp none (some a) = false) ∧
    (∀ a b : na_sm_addr,
      NA_Addr_cmp (some a) (some b) = true ↔ a.pid = b.pid ∧ a.id = b.id) := by
  refine ⟨rfl, fun a => ⟨rfl, rfl⟩, fun a b => ?_⟩
  simp [NA_Addr_cmp, na_sm_addr_cmp, Bool.and_eq_true, beq_iff_eq]

/-- C8: `na_sm_put` fails with `NA_PERMISSION` on a read-only remote
handle, `na_sm_get` fails with `NA_PERMISSION` on a write-only remote
handle, and both fail with `NA_INVALID_ARG` on any other flag value than
the three legal ones; in each failure case the state is returned untouched
and the remainder of the function (`rest`) never runs, so nothing is
posted and no completion is produced. -/
theorem na_sm_put_get_permission (flags : Nat) (s : SmRmaState)
    (rest : SmRmaState → na_return × SmRmaState) :
    (flags = NA_MEM_READ_ONLY → na_sm_put flags s rest = (.NA_PERMISSION, s)) ∧
    (flags = NA_MEM_WRITE_ONLY → na_sm_get flags s rest = (.NA_PERMISSION, s)) ∧
    (flags ≠ NA_MEM_READ_ONLY → flags ≠ NA_MEM_WRITE_ONLY → flags ≠ NA_MEM_READWRITE →
      na_sm_put flags s rest = (.NA_INVALID_ARG, s) ∧
      na_sm_get flags s rest = (.NA_INVALID_ARG, s)) := by
  refine ⟨fun h => ?_, fun h => ?_, fun h1 h2 h3 => ⟨?_, ?_⟩⟩ <;>
    simp [na_sm_put, na_sm_get, NA_MEM_READ_ONLY, NA_MEM_WRITE_ONLY, NA_MEM_READWRITE, *] at * <;>
    simp [*]

/-- C8 witness: the permission checks evaluated at concrete flag values. -/
theorem na_sm_put_get_permission_witness :
    na_sm_put NA_MEM_READ_ONLY ⟨[]⟩ (fun s => (.NA_SUCCESS, s)) = (.NA_PERMISSION, ⟨[]⟩) ∧
    na_sm_get NA_MEM_WRITE_ONLY ⟨[]⟩ (fun s => (.NA_SUCCESS, s)) = (.NA_PERMISSION, ⟨[]⟩) ∧
    na_sm_put 0 ⟨[]⟩ (fun s => (.NA_SUCCESS, s)) = (.NA_INVALID_ARG, ⟨[]⟩) ∧
    na_sm_get 0 ⟨[]⟩ (fun s => (.NA_SUCCESS, s)) = (.NA_INVALID_ARG, ⟨[]⟩) :=
  ⟨(na_sm_put_get_permission NA_MEM_READ_ONLY ⟨[]⟩ _).1 rfl,
   (na_sm_put_get_permission NA_MEM_WRITE_ONLY ⟨[]⟩ _).2.1 rfl,
   ((na_sm_put_get_permission 0 ⟨[]⟩ _).2.2 (by decide) (by decide) (by decide)).1,
   ((na_sm_put_get_permission 0 ⟨[]⟩ _).2.2 (by decide) (by decide) (by decide)).2⟩

/-- C3 counterexample: with an empty atomic completion queue and one
record in the backfill queue, `NA_Context_destroy` does return `NA_BUSY`,
but the context state is NOT left unchanged — the atomic completion queue
has already been freed when the `NA_BUSY` is returned. -/
theorem NA_Context_destroy_busy_not_noop :
    (NA_Context_destroy ⟨[], [5], false, false, false⟩).1 = .NA_BUSY ∧
    (NA_Context_destroy ⟨[], [5], false, false, false⟩).2 ≠
      ⟨[], [5], false, false, false⟩ := by
  decide

/-- C3 amended: `NA_Context_destroy` returns `NA_BUSY` exactly when a
record sits in the atomic completion queue or in the backfill queue, and
succeeds when both are empty.  When the atomic queue is non-empty the
failure leaves the context unchanged; when only the backfill queue is
non-empty the atomic completion queue has already been freed before the
`NA_BUSY` return, so that failure is not a no-op. -/
theorem NA_Context_destroy_spec (ctx : na_private_context) :
    ((NA_Context_destroy ctx).1 = .NA_BUSY ↔
      ctx.completion_queue ≠ [] ∨ ctx.backfill_queue ≠ []) ∧
    (ctx.completion_queue ≠ [] → NA_Context_destroy ctx = (.NA_BUSY, ctx)) ∧
    (ctx.completion_queue = [] → ctx.backfill_queue ≠ [] →
      NA_Context_destroy ctx =
        (.NA_BUSY, { ctx with completion_queue_freed := true })) ∧
    (ctx.completion_queue = [] → ctx.backfill_queue = [] →
      (NA_Context_destroy ctx).1 = .NA_SUCCESS) := by
  unfold NA_Context_destroy
  by_cases h1 : ctx.completion_queue = [] <;>
    by_cases h2 : ctx.backfill_queue = [] <;>
    simp [h1, h2]

/-- C3 witness: the amended statement evaluated at a context with a
record in the atomic completion queue. -/
theorem NA_Context_destroy_spec_witness :
    NA_Context_destroy ⟨[3], [], false, false, false⟩ =
      (.NA_BUSY, ⟨[3], [], false, false, false⟩) :=
  (NA_Context_destroy_spec ⟨[3], [], false, false, false⟩).2.1 (by decide)

/-- C5: evaluation of `na_sm_reserve_and_copy_buf` at the failing input.
The availability word `2 ^ 63` is non-zero, yet the call returns
`NA_AGAIN` and leaves the word unchanged: the scan loop's exit condition
`i < NA_SM_NUM_BUFS - 1` is re-tested after the increment, so bit 63 is
never examined.  The claim (and the spec's "if no bit is set, return
AGAIN") describes scanning all 64 bits; the code is off by one. -/
theorem na_sm_reserve_skips_bit63 :
    na_sm_reserve_and_copy_buf (2 ^ 63) = ⟨.NA_AGAIN, 2 ^ 63, none⟩ ∧
    (2 ^ 63 : Nat) ≠ 0 ∧
    na_sm_reserve_and_copy_buf (2 ^ 62) =
      ⟨.NA_SUCCESS, 0, some 62⟩ := by
  decide

/-- C1 counterexample: a 0-byte send is not rejected by the SM plugin
functions.  With a valid completed op id, a free copy-pool slot and a
non-full ring, both `na_sm_msg_send_unexpected` and
`na_sm_msg_send_expected` accept `buf_size = 0` and return `NA_SUCCESS`
(posting and completing the send), not `NA_INVALID_ARG`. -/
theorem na_sm_msg_send_zero_not_rejected :
    (na_sm_msg_send_unexpected ⟨0, 1, 1⟩ 0 ⟨UINT64_MAX, 0, [], [], false⟩).map
        (fun r => r.1) = some .NA_SUCCESS ∧
    (na_sm_msg_send_expected ⟨0, 1, 1⟩ 0 ⟨UINT64_MAX, 0, [], [], false⟩).map
        (fun r => r.1) = some .NA_SUCCESS := by
  decide

/-- C1 amended: both SM send functions reject `buf_size > 4096` with
`NA_OVERFLOW` before any operation is posted (op id and state are
untouched).  A 0-byte send is not rejected by these plugin functions; the
`NA_INVALID_ARG` rejection of zero-size buffers happens in the NA API
wrapper layer (na.h), which is outside these functions. -/
theorem na_sm_msg_send_overflow (op : SmOp) (buf_size : Nat) (s : SmSendState)
    (h : buf_size > NA_SM_UNEXPECTED_SIZE) :
    na_sm_msg_send_unexpected op buf_size s = some (.NA_OVERFLOW, op, s) ∧
    na_sm_msg_send_expected op buf_size s = some (.NA_OVERFLOW, op, s) := by
  refine ⟨?_, ?_⟩ <;>
    · simp only [na_sm_msg_send_unexpected, na_sm_msg_send_expected,
        NA_SM_EXPECTED_SIZE]
      rw [if_pos h]

/-- C1 witness: the overflow rejection evaluated at 4097 bytes. -/
theorem na_sm_msg_send_overflow_witness :
    na_sm_msg_send_unexpected ⟨0, 1, 1⟩ 4097 ⟨UINT64_MAX, 0, [], [], false⟩ =
      some (.NA_OVERFLOW, ⟨0, 1, 1⟩, ⟨UINT64_MAX, 0, [], [], false⟩) ∧
    na_sm_msg_send_expected ⟨0, 1, 1⟩ 4097 ⟨UINT64_MAX, 0, [], [], false⟩ =
      some (.NA_OVERFLOW, ⟨0, 1, 1⟩, ⟨UINT64_MAX, 0, [], [], false⟩) :=
  na_sm_msg_send_overflow ⟨0, 1, 1⟩ 4097 ⟨UINT64_MAX, 0, [], [], false⟩ (by decide)

/-- C2 counterexample: the claimed selection rule fails on the code.  The
info string "na+tcp" specifies the class name "na", which equals the SM
plugin's registered class name (rule (b) of the claim holds), yet
initialization fails with `NA_PROTONOSUPPORT` because `check_protocol`
rejects "tcp".  Moreover "sm+sm://x" — which the claim says selects the
SM plugin under rule (b) — fails with `NA_PROTONOSUPPORT`, because the SM
plugin's registered class name is "na", not "sm". -/
theorem NA_Initialize_select_claim_false :
    (na_info_parse (("na+tcp").toList) =
        .ok ⟨some (("na").toList), ("tcp").toList, none⟩ ∧
      ("na").toList = NA_PLUGIN_OPS_sm.class_name ∧
      NA_Initialize_select (("na+tcp").toList) = .error .NA_PROTONOSUPPORT) ∧
    NA_Initialize_select (("sm+sm://x").toList) = .error .NA_PROTONOSUPPORT :=
  ⟨⟨rfl, rfl, rfl⟩, rfl⟩

/-- C2 amended: with the single-plugin table of this build, a parsed info
string selects the SM plugin (index 0) exactly when `check_protocol`
accepts the protocol AND either no class name was given or the given class
name equals the plugin's registered name "na"; in every other case
initialization fails with `NA_PROTONOSUPPORT`.  In particular
"na+sm://..." selects the SM plugin and "sm+sm://..." does not. -/
theorem NA_Initialize_select_spec (info_string : List Char) (info : na_info)
    (h : na_info_parse info_string = .ok info) :
    (NA_Initialize_select info_string = .ok 0 ↔
      (info.class_name = none ∨ info.class_name = some NA_PLUGIN_OPS_sm.class_name) ∧
        NA_PLUGIN_OPS_sm.check_protocol info.protocol_name = true) ∧
    (NA_Initialize_select info_string = .ok 0 ∨
      NA_Initialize_select info_string = .error .NA_PROTONOSUPPORT) := by
  unfold NA_Initialize_select
  rw [h]
  cases hc : info.class_name with
  | none =>
    by_cases hp : NA_PLUGIN_OPS_sm.check_protocol info.protocol_name <;>
      simp [na_plugin_select, na_class_table, hc, hp]
  | some c =>
    by_cases hcc : c = NA_PLUGIN_OPS_sm.class_name <;>
      by_cases hp : NA_PLUGIN_OPS_sm.check_protocol info.protocol_name <;>
      simp [na_plugin_select, na_class_table, hc, hcc, hp]

/-- C4: `NA_Trigger` runs, for every popped record, the user callback
immediately before that record's plugin-release callback (the event trace
is the concatenation of `[user_cb r, plugin_cb r]` over the processed
records); it waits on the condition variable only when zero records have
been popped (a `cond_wait` event can only appear in the trace when the
processed prefix is empty); it returns `NA_TIMEOUT` exactly when nothing
was popped and `max_count` was non-zero, and otherwise `NA_SUCCESS` with
`actual_count` equal to the number of records processed, which is at most
`max_count`. -/
theorem NA_Trigger_spec (timeout max_count : Nat) (cq bq : List Nat) :
    (NA_Trigger timeout max_count cq bq).events =
      ((cq ++ bq).take max_count).flatMap (fun r => [.user_cb r, .plugin_cb r]) ++
        (if max_count ≠ 0 ∧ (cq ++ bq).take max_count = [] ∧ timeout ≠ 0 then
          [.cond_wait] else []) ∧
    (NA_Trigger timeout max_count cq bq).actual_count =
      ((cq ++ bq).take max_count).length ∧
    ((cq ++ bq).take max_count).length ≤ max_count ∧
    ((NA_Trigger timeout max_count cq bq).ret = .NA_TIMEOUT ↔
      max_count ≠ 0 ∧ (cq ++ bq).take max_count = []) ∧
    ((NA_Trigger timeout max_count cq bq).ret = .NA_TIMEOUT ∨
      (NA_Trigger timeout max_count cq bq).ret = .NA_SUCCESS) := by
  unfold NA_Trigger
  rw [NA_Trigger_loop_spec]
  by_cases h : (cq ++ bq).take max_count = [] ∧ max_count ≠ 0 ∧ (0 : Nat) = 0
  · rw [if_pos h]
    obtain ⟨h1, h2, -⟩ := h
    by_cases ht : timeout = 0 <;> simp [h1, h2, ht]
  · rw [if_neg h]
    have hr : ¬(max_count ≠ 0 ∧ (cq ++ bq).take max_count = []) :=
      fun hx => h ⟨hx.2, hx.1, rfl⟩
    have hw : ¬(max_count ≠ 0 ∧ (cq ++ bq).take max_count = [] ∧ timeout ≠ 0) :=
      fun hx => hr ⟨hx.1, hx.2.1⟩
    refine ⟨?_, by simp, List.length_take_le _ _, ?_, Or.inr rfl⟩
    · rw [if_neg hw]
      simp
    · constructor
      · intro hx
        simp at hx
      · intro hx
        exact absurd hx hr

/-- C6: `na_sm_cancel` on an op whose status has the `COMPLETED` bit set
is a no-op — it returns `NA_SUCCESS` touching neither queue nor
completions (only the `CANCELED` status bit is set).  On an op whose
status has the `QUEUED` bit set (posted-but-unmatched unexpected or
expected receive, or an unsent retry send; pending lookups are left
alone by the switch), the op is removed from its queue and completed
synchronously with callback return code `NA_CANCELED`.  A second cancel
on the resulting op is a no-op for any state, so a queued op is completed
exactly once with `NA_CANCELED`. -/
theorem na_sm_cancel_spec (op : SmOp) (s : SmCancelState) :
    (∀ cb_type : na_cb_type, op.status &&& NA_SM_OP_COMPLETED ≠ 0 →
      na_sm_cancel cb_type op s =
        (.NA_SUCCESS, { op with status := op.status ||| NA_SM_OP_CANCELED }, s)) ∧
    (op.status &&& NA_SM_OP_COMPLETED = 0 → op.status &&& NA_SM_OP_QUEUED ≠ 0 →
      na_sm_cancel .NA_CB_RECV_UNEXPECTED op s =
        (.NA_SUCCESS, cancelComplete op,
          { s with unexpected_op_queue := s.unexpected_op_queue.erase op.id,
                   completions := s.completions ++ [(op.id, .NA_CANCELED)] }) ∧
      na_sm_cancel .NA_CB_RECV_EXPECTED op s =
        (.NA_SUCCESS, cancelComplete op,
          { s with expected_op_queue := s.expected_op_queue.erase op.id,
                   completions := s.completions ++ [(op.id, .NA_CANCELED)] }) ∧
      na_sm_cancel .NA_CB_SEND_UNEXPECTED op s =
        (.NA_SUCCESS, cancelComplete op,
          { s with retry_op_queue := s.retry_op_queue.erase op.id,
                   completions := s.completions ++ [(op.id, .NA_CANCELED)] }) ∧
      na_sm_cancel .NA_CB_SEND_EXPECTED op s =
        (.NA_SUCCESS, cancelComplete op,
          { s with retry_op_queue := s.retry_op_queue.erase op.id,
                   completions := s.completions ++ [(op.id, .NA_CANCELED)] })) ∧
    (∀ cb_type : na_cb_type, ∀ s1 : SmCancelState,
      na_sm_cancel cb_type (cancelComplete op) s1 =
        (.NA_SUCCESS,
          { cancelComplete op with
              status := (cancelComplete op).status ||| NA_SM_OP_CANCELED }, s1)) := by
  have hdone : ∀ (x : Nat), x &&& NA_SM_OP_COMPLETED ≠ 0 →
      ∀ (cb_type : na_cb_type) (op1 : SmOp) (s1 : SmCancelState),
        op1.status = x →
        na_sm_cancel cb_type op1 s1 =
          (.NA_SUCCESS, { op1 with status := op1.status ||| NA_SM_OP_CANCELED }, s1) := by
    intro x hx cb_type op1 s1 hst
    rw [← hst] at hx
    simp only [na_sm_cancel, if_pos hx]
  refine ⟨fun cb_type h => hdone _ h cb_type op s rfl, fun hC hQ => ?_, ?_⟩
  · have hC' : ¬(op.status &&& NA_SM_OP_COMPLETED ≠ 0) := by simpa using hC
    have hQ1 : (op.status ||| NA_SM_OP_CANCELED) &&& NA_SM_OP_QUEUED ≠ 0 := by
      rw [nat_or_and_distrib]
      simp only [NA_SM_OP_CANCELED, NA_SM_OP_QUEUED] at hQ ⊢
      have h24 : (2 : Nat) &&& 4 = 0 := by decide
      rw [h24, Nat.or_zero]
      exact hQ
    have hcb : ((op.status ||| NA_SM_OP_CANCELED) &&& (UINT32_MAX ^^^ NA_SM_OP_QUEUED)) &&&
        NA_SM_OP_CANCELED ≠ 0 := by
      rw [Nat.land_assoc]
      have hM : (UINT32_MAX ^^^ NA_SM_OP_QUEUED) &&& NA_SM_OP_CANCELED =
          NA_SM_OP_CANCELED := by decide
      rw [hM]
      simp only [NA_SM_OP_CANCELED]
      rw [nat_or_two_and_two]
      decide
    refine ⟨?_, ?_, ?_, ?_⟩ <;>
      · simp only [na_sm_cancel, na_sm_cancel_dequeue, na_sm_complete, hC', if_false,
          if_pos hQ1, if_pos hcb, if_neg hC']
        rfl
  · intro cb_type s1
    refine hdone ((cancelComplete op).status) ?_ cb_type (cancelComplete op) s1 rfl
    show (((op.status ||| NA_SM_OP_CANCELED) &&& (UINT32_MAX ^^^ NA_SM_OP_QUEUED)) |||
      NA_SM_OP_COMPLETED) &&& NA_SM_OP_COMPLETED ≠ 0
    simp only [NA_SM_OP_COMPLETED]
    rw [nat_or_one_and_one]
    decide

/-- C6 witness: cancelling a queued unexpected receive removes it from
the queue and completes it once with `NA_CANCELED`; a second cancel on
the result is a no-op. -/
theorem na_sm_cancel_spec_witness :
    na_sm_cancel .NA_CB_RECV_UNEXPECTED ⟨5, 4, 2⟩ ⟨[5], [], [], []⟩ =
      (.NA_SUCCESS, cancelComplete ⟨5, 4, 2⟩, ⟨[], [], [], [(5, .NA_CANCELED)]⟩) ∧
    na_sm_cancel .NA_CB_RECV_UNEXPECTED (cancelComplete ⟨5, 4, 2⟩)
        ⟨[], [], [], [(5, .NA_CANCELED)]⟩ =
      (.NA_SUCCESS,
        { cancelComplete ⟨5, 4, 2⟩ with
            status := (cancelComplete ⟨5, 4, 2⟩).status ||| NA_SM_OP_CANCELED },
        ⟨[], [], [], [(5, .NA_CANCELED)]⟩) :=
  ⟨(((na_sm_cancel_spec ⟨5, 4, 2⟩ ⟨[5], [], [], []⟩).2.1 (by decide) (by decide)).1).trans
      (by decide),
   (na_sm_cancel_spec ⟨5, 4, 2⟩ ⟨[5], [], [], []⟩).2.2 .NA_CB_RECV_UNEXPECTED
      ⟨[], [], [], [(5, .NA_CANCELED)]⟩⟩

/-- C7: for a memory handle and a byte range `[offset, offset + length)`
with `length > 0` lying inside the concatenated segments,
`na_sm_offset_translate` emits slices whose lengths sum to exactly
`length` and whose concatenated addresses are exactly the addresses of
that byte range of the concatenated segments: the first slice starts at
the intra-segment offset, trimmed to the remaining segment length and the
requested length, and successor segments follow until the length is
exhausted. -/
theorem na_sm_offset_translate_spec (mem_handle : na_sm_mem_handle)
    (offset length : Nat) (h1 : 0 < length)
    (h2 : offset + length ≤ iovLen mem_handle.iov) :
    iovLen (na_sm_offset_translate mem_handle offset length) = length ∧
    iovAddrs (na_sm_offset_translate mem_handle offset length) =
      ((iovAddrs mem_handle.iov).drop offset).take length := by
  have haddr := na_sm_offset_walk_addrs mem_handle.iov offset length h1 h2
  refine ⟨?_, haddr⟩
  have hlen := iovAddrs_length (na_sm_offset_walk mem_handle.iov offset length)
  rw [na_sm_offset_translate]
  rw [← hlen, haddr, List.length_take, List.length_drop, iovAddrs_length]
  omega

/-- C7 witness: translating offset 2, length 4 in a two-segment handle
crosses the segment boundary correctly. -/
theorem na_sm_offset_translate_spec_witness :
    iovLen (na_sm_offset_translate ⟨[(100, 3), (200, 4)], 3, 7⟩ 2 4) = 4 ∧
    iovAddrs (na_sm_offset_translate ⟨[(100, 3), (200, 4)], 3, 7⟩ 2 4) =
      ((iovAddrs ([(100, 3), (200, 4)] : List (Nat × Nat))).drop 2).take 4 :=
  na_sm_offset_translate_spec ⟨[(100, 3), (200, 4)], 3, 7⟩ 2 4 (by decide) (by decide)

/-- C9: serialising a memory handle with at least one segment (whose
fields fit machine words) and deserialising the result yields an
equivalent handle: same segment count, same flags, same total length, and
the same (base, length) pair for every segment.  The C functions ignore
their buffer-size arguments, so "sufficiently large buffer" is automatic. -/
theorem na_sm_mem_handle_roundtrip (mem_handle : na_sm_mem_handle)
    (hne : mem_handle.iov ≠ [])
    (hcnt : mem_handle.iov.length < 2 ^ 64)
    (hflags : mem_handle.flags < 2 ^ 64)
    (hlen : mem_handle.len < 2 ^ 64)
    (hsegs : ∀ s ∈ mem_handle.iov, s.1 < 2 ^ 64 ∧ s.2 < 2 ^ 64) :
    na_sm_mem_handle_deserialize (na_sm_mem_handle_serialize mem_handle) =
      .ok mem_handle := by
  obtain ⟨iov, flags, len⟩ := mem_handle
  simp only [na_sm_mem_handle_serialize, na_sm_mem_handle_deserialize] at *
  rw [List.append_assoc, List.append_assoc]
  rw [readU64_encodeU64 _ _ hcnt]
  simp only
  rw [if_neg (by simpa using hne)]
  rw [readU64_encodeU64 _ _ hflags]
  simp only
  rw [readU64_encodeU64 _ _ hlen]
  simp only
  rw [show iov.flatMap (fun s => encodeU64 s.1 ++ encodeU64 s.2) =
    iov.flatMap (fun s => encodeU64 s.1 ++ encodeU64 s.2) ++ [] from
    (List.append_nil _).symm]
  rw [readSegs_encode iov [] hsegs]

/-- C9 witness: the round trip evaluated on a two-segment read-write
handle. -/
theorem na_sm_mem_handle_roundtrip_witness :
    na_sm_mem_handle_deserialize
        (na_sm_mem_handle_serialize ⟨[(4096, 8192), (70000, 16)], 3, 8208⟩) =
      .ok ⟨[(4096, 8192), (70000, 16)], 3, 8208⟩ :=
  na_sm_mem_handle_roundtrip ⟨[(4096, 8192), (70000, 16)], 3, 8208⟩
    (by decide) (by decide) (by decide) (by decide) (by decide)

/-- C2 witness: the amended statement evaluated on "na+sm://x", which
selects the SM plugin. -/
theorem NA_Initialize_select_spec_witness :
    NA_Initialize_select (("na+sm://x").toList) = .ok 0 ∨
    NA_Initialize_select (("na+sm://x").toList) = .error .NA_PROTONOSUPPORT :=
  (NA_Initialize_select_spec (("na+sm://x").toList)
    ⟨some (("na").toList), ("sm").toList, some (("x").toList)⟩ rfl).2

end Mercury
